import Mathlib

/-!
Verification of the Kleinanzeigen → Telegram notification bot (`src/main.rs`).

The development shallowly embeds the program's pure control flow:

* Rust string operations (`trim`, `split`, `starts_with`, `split_whitespace`)
  are modelled structurally over `List Char`, wrapped in `String`.
* The page extractor `scrape_kleinanzeigen_page` operates on `Article` values,
  the abstraction of what the external HTML selector engine yields for each
  `article.aditem` container (the `data-adid` attribute, the first `a.ellipsis`
  element, the first `.aditem-image img` element).
* The Telegram transport is an oracle `Nat → HttpResponse` giving the response
  to the i-th transport call of the run; `handleResponse` embeds the shared
  response-handling tail of `send_photo_message` / `send_text_message`.
* `run` embeds `main`'s pipeline: load (the initial queue is a parameter),
  paginated collection, processing with delivery/retry/fallback, pruning and
  the save decision.  `RunTrace.written` records the argument passed to
  `save_seen_ads`, `none` when save is never invoked.
-/

-- ### Rust string operations, modelled over `List Char`

/-- Model of Rust `str::split` by a character predicate: splits a character
list at every character satisfying `p`, keeping empty chunks (as Rust's
`split` does). Always returns a non-empty list of chunks. -/
def splitPredAux (p : Char → Bool) : List Char → List (List Char)
  | [] => [[]]
  | x :: xs =>
    if p x then
      [] :: splitPredAux p xs
    else
      match splitPredAux p xs with
      | [] => [[x]]
      | h :: t => (x :: h) :: t

/-- Model of Rust `str::split(c)`. -/
def splitChar (c : Char) (s : String) : List String :=
  (splitPredAux (fun x => x == c) s.data).map String.mk

/-- Model of Rust `str::split_whitespace`: whitespace-separated non-empty
chunks. -/
def splitWhitespaceStr (s : String) : List String :=
  ((splitPredAux Char.isWhitespace s.data).filter (fun l => !l.isEmpty)).map String.mk

/-- Model of Rust `str::starts_with`. -/
def strStartsWith (s p : String) : Bool :=
  p.data.isPrefixOf s.data

/-- Model of Rust `str::trim`. -/
def strTrim (s : String) : String :=
  String.mk (((s.data.dropWhile Char.isWhitespace).reverse.dropWhile Char.isWhitespace).reverse)

-- ### Constants (src/main.rs lines 20-24, 314)

/-- The origin prefixed to relative ad links (src/main.rs line 116). -/
def siteOrigin : String := "https://www.kleinanzeigen.de"

/-- The posting-path marker required of ad links (src/main.rs line 114). -/
def adPathMarker : String := "/s-anzeige/"

/-- `MAX_SEEN_ADS` (src/main.rs line 23). -/
def MAX_SEEN_ADS : Nat := 1000

/-- `FIRST_RUN_LIMIT` (src/main.rs line 24). -/
def FIRST_RUN_LIMIT : Nat := 25

/-- `MAX_PAGES_TO_SCAN` (src/main.rs line 314). -/
def MAX_PAGES_TO_SCAN : Nat := 10

-- ### Data model

/-- The `Ad` struct (src/main.rs lines 30-39). -/
structure Ad where
  id : String
  title : String
  link : String
  image_url : Option String
deriving DecidableEq

/-- Abstraction of the first `.aditem-image img` element of a container:
its `srcset` and `src` attributes, if present. -/
structure ImgElem where
  srcset : Option String
  src : Option String
deriving DecidableEq

/-- Abstraction of the first `a.ellipsis` element of a container: its `href`
attribute, if present, and its collected text content. -/
structure LinkElem where
  href : Option String
  text : String
deriving DecidableEq

/-- Abstraction of one `article.aditem` container as seen through the three
selectors used by `scrape_kleinanzeigen_page`. -/
structure Article where
  dataAdid : Option String
  titleLink : Option LinkElem
  image : Option ImgElem
deriving DecidableEq

-- ### Page extractor (src/main.rs lines 95-160)

/-- Image candidate choice (src/main.rs lines 120-135): prefer the last
`srcset` entry's URL part, falling back to `src`. -/
def pickImageSrc (img : ImgElem) : Option String :=
  match img.srcset with
  | some srcset =>
    ((splitChar ',' srcset).getLast?).bind (fun s => (splitWhitespaceStr s).head?)
  | none => img.src

/-- High-resolution rewrite (src/main.rs lines 136-145): strip the query
string and append the fixed rule. -/
def hiResImageUrl (src : String) : String :=
  match (splitChar '?' src).head? with
  | some base => base ++ "?rule=$_59.AUTO"
  | none => src

/-- The image-URL pipeline of the extractor (src/main.rs lines 120-145). -/
def imageUrlOf (img : Option ImgElem) : Option String :=
  (img.bind pickImageSrc).map hiResImageUrl

/-- One iteration of the extractor loop (src/main.rs lines 107-156): the
nested `if let` chain producing at most one `Ad` per container. -/
def articleRecord (article : Article) : Option Ad :=
  match article.dataAdid with
  | none => none
  | some adId =>
    match article.titleLink with
    | none => none
    | some linkElement =>
      match linkElement.href with
      | none => none
      | some href =>
        if strStartsWith href adPathMarker then
          some {
            id := adId
            title := strTrim linkElement.text
            link := siteOrigin ++ href
            image_url := imageUrlOf article.image }
        else
          none

/-- `scrape_kleinanzeigen_page` (src/main.rs lines 95-160), on the container
abstraction: one record per well-formed container, in document order. -/
def scrape_kleinanzeigen_page (articles : List Article) : List Ad :=
  articles.filterMap articleRecord

-- ### Telegram transport model (src/main.rs lines 42-55, 174-276)

/-- The `TelegramErrorParameters` struct (src/main.rs lines 52-55). -/
structure TelegramErrorParameters where
  retry_after : Option Int
deriving DecidableEq

/-- The `TelegramError` struct (src/main.rs lines 43-48). -/
structure TelegramError where
  error_code : Option Int
  parameters : Option TelegramErrorParameters
deriving DecidableEq

/-- Outcome of one raw transport call: HTTP success, an HTTP error response
(with the body's parse as `TelegramError` when it parses), or a network-level
error from `send()`/`bytes()`. -/
inductive HttpResponse where
  | success
  | apiError (status : String) (body : String) (parsed : Option TelegramError)
  | netError (msg : String)

deriving instance DecidableEq for Except

/-- Delivery mode of one transport attempt. -/
inductive SendMode where
  | photo
  | text
deriving DecidableEq

/-- The shared response handling of `send_photo_message` and
`send_text_message` (src/main.rs lines 196-224 and 248-276): success yields
`.ok none`; a parsed 429 yields `.ok (some retryAfter)`, defaulting to 30
when no `retry_after` is present; anything else is an error with the
formatted message. -/
def handleResponse : HttpResponse → Except String (Option Int)
  | .success => .ok none
  | .netError msg => .error msg
  | .apiError status body parsed =>
    match parsed with
    | some telegramError =>
      if telegramError.error_code = some 429 then
        match telegramError.parameters with
        | some params =>
          match params.retry_after with
          | some retryAfter => .ok (some retryAfter)
          | none => .ok (some 30)
        | none => .ok (some 30)
      else
        .error ("Telegram API Fehler: " ++ status ++ " - " ++ body)
    | none => .error ("Telegram API Fehler: " ++ status ++ " - " ++ body)

/-- Rust `Result::is_ok` on a send result: both `Ok(None)` (delivered) and
`Ok(Some _)` (rate-limited) count as ok; only `Err` does not. -/
def sendIsOk : Except String (Option Int) → Bool
  | .ok _ => true
  | .error _ => false

/-- Outcome of processing one new ad's delivery (src/main.rs lines 385-483):
whether `send_success` ended up true, the transport attempts made (mode and
handled result, in order), the rate-limit suspensions performed (seconds, in
order), and the index of the next transport call. -/
structure SendOutcome where
  success : Bool
  attempts : List (SendMode × Except String (Option Int))
  sleeps : List Int
  nextIdx : Nat
deriving DecidableEq

/-- The per-ad delivery logic of `main` (src/main.rs lines 384-483).
`oracle` gives the handled-response source; `k` is the index of the first
transport call for this ad; `hasImage` selects the photo or text branch. -/
def deliverAd (oracle : Nat → HttpResponse) (k : Nat) (hasImage : Bool) : SendOutcome :=
  if hasImage then
    match handleResponse (oracle k) with
    | .ok none =>
      ⟨true, [(.photo, .ok none)], [], k + 1⟩
    | .ok (some ra) =>
      match handleResponse (oracle (k + 1)) with
      | .ok none =>
        ⟨true, [(.photo, .ok (some ra)), (.photo, .ok none)], [ra], k + 2⟩
      | .ok (some ra2) =>
        ⟨sendIsOk (handleResponse (oracle (k + 2))),
          [(.photo, .ok (some ra)), (.photo, .ok (some ra2)),
            (.photo, handleResponse (oracle (k + 2)))],
          [ra, ra2], k + 3⟩
      | .error e2 =>
        ⟨false, [(.photo, .ok (some ra)), (.photo, .error e2)], [ra], k + 2⟩
    | .error e1 =>
      match handleResponse (oracle (k + 1)) with
      | .ok none =>
        ⟨true, [(.photo, .error e1), (.text, .ok none)], [], k + 2⟩
      | .ok (some ra) =>
        ⟨sendIsOk (handleResponse (oracle (k + 2))),
          [(.photo, .error e1), (.text, .ok (some ra)),
            (.text, handleResponse (oracle (k + 2)))],
          [ra], k + 3⟩
      | .error e2 =>
        ⟨false, [(.photo, .error e1), (.text, .error e2)], [], k + 2⟩
  else
    match handleResponse (oracle k) with
    | .ok none =>
      ⟨true, [(.text, .ok none)], [], k + 1⟩
    | .ok (some ra) =>
      ⟨sendIsOk (handleResponse (oracle (k + 1))),
        [(.text, .ok (some ra)), (.text, handleResponse (oracle (k + 1)))],
        [ra], k + 2⟩
    | .error e =>
      ⟨false, [(.text, .error e)], [], k + 1⟩

-- ### Run orchestration (src/main.rs lines 280-538)

/-- Seen-set membership: the `HashSet` built from the loaded queue
(src/main.rs line 307). -/
def seenOf (q : List String) (id : String) : Bool :=
  q.contains id

/-- The paging loop body (src/main.rs lines 322-366): fetch up to `fuel`
further pages starting at `page`, accumulating extracted ads; stop on an
empty page, and stop after a page containing an already-seen id (that page's
ads are still accumulated, src/main.rs line 352). A fetch error aborts. -/
def collectGo (seen : String → Bool) (fetch : Nat → Except String (List Article)) :
    Nat → Nat → List Ad → Except String (List Ad)
  | 0, _, acc => .ok acc
  | fuel + 1, page, acc =>
    match fetch page with
    | .error e => .error e
    | .ok articles =>
      let currentAds := scrape_kleinanzeigen_page articles
      if currentAds.isEmpty then
        .ok acc
      else if currentAds.any (fun ad => seen ad.id) then
        .ok (acc ++ currentAds)
      else
        collectGo seen fetch fuel (page + 1) (acc ++ currentAds)

/-- The full paging phase (src/main.rs lines 318-366): pages 1 through
`MAX_PAGES_TO_SCAN`. -/
def collectAds (seen : String → Bool) (fetch : Nat → Except String (List Article)) :
    Except String (List Ad) :=
  collectGo seen fetch MAX_PAGES_TO_SCAN 1 []

/-- Record of one processed new ad: its id, the transport attempts made, the
rate-limit suspensions, and whether `send_success` was true. -/
structure DeliveryRecord where
  adId : String
  attempts : List (SendMode × Except String (Option Int))
  sleeps : List Int
  success : Bool
deriving DecidableEq

/-- The mutable state of the processing loop (src/main.rs lines 295-311,
369-505): the seen-ads queue, `new_ads_found_total`, `first_run_sent_count`,
the next transport-call index, and the deliveries performed so far. -/
structure ProcState where
  queue : List String
  newFound : Nat
  firstRunSent : Nat
  oracleIdx : Nat
  deliveries : List DeliveryRecord
deriving DecidableEq

/-- The state update for one processed new ad (src/main.rs lines 377,
485-499): `new_ads_found_total` is always bumped; the id is appended to the
queue and the first-run counter bumped only when `send_success` is true. -/
def stepState (isFirstRun : Bool) (st : ProcState) (ad : Ad) (out : SendOutcome) : ProcState :=
  { queue := if out.success then st.queue ++ [ad.id] else st.queue
    newFound := st.newFound + 1
    firstRunSent :=
      if out.success ∧ isFirstRun then st.firstRunSent + 1 else st.firstRunSent
    oracleIdx := out.nextIdx
    deliveries := st.deliveries ++ [⟨ad.id, out.attempts, out.sleeps, out.success⟩] }

/-- The processing loop (src/main.rs lines 369-505): for each collected ad,
break on the first-run cap, skip seen ids, otherwise deliver and — only on
`send_success` — append the id to the queue (and bump the first-run
counter). -/
def processAds (isFirstRun : Bool) (seen : String → Bool) (oracle : Nat → HttpResponse) :
    List Ad → ProcState → ProcState
  | [], st => st
  | ad :: rest, st =>
    if isFirstRun ∧ FIRST_RUN_LIMIT ≤ st.firstRunSent then
      st
    else if seen ad.id then
      processAds isFirstRun seen oracle rest st
    else
      processAds isFirstRun seen oracle rest
        (stepState isFirstRun st ad (deliverAd oracle st.oracleIdx ad.image_url.isSome))

/-- The pruning while-loop (src/main.rs lines 516-518): pop from the front
while the queue is longer than `MAX_SEEN_ADS`. -/
def pruneQueue : List String → List String
  | [] => []
  | x :: t =>
    if MAX_SEEN_ADS < (x :: t).length then
      pruneQueue t
    else
      x :: t

/-- The end-of-run persistence decision (src/main.rs lines 508-533): when at
least one new ad was found, prune and return the sequence handed to
`save_seen_ads`; otherwise no save happens. -/
def finishRun (newFound : Nat) (queue : List String) : Option (List String) :=
  if 0 < newFound then some (pruneQueue queue) else none

/-- Observable outcome of one run of `main`'s pipeline: the propagated
result, the queue after insertions and before pruning, the sequence passed
to `save_seen_ads` (`none` when save is never invoked), the final in-memory
queue, the deliveries, and `new_ads_found_total`. -/
structure RunTrace where
  result : Except String Unit
  prePruneQueue : List String
  written : Option (List String)
  finalQueue : List String
  deliveries : List DeliveryRecord
  newFound : Nat

/-- The tail of the run after the paging phase (src/main.rs lines 368-538):
a fetch error aborts the run with no persisted state; otherwise the collected
ads are processed and the prune/save phase runs. -/
def runWith (q0 : List String) (oracle : Nat → HttpResponse) :
    Except String (List Ad) → RunTrace
  | .error e =>
    { result := .error e, prePruneQueue := q0, written := none,
      finalQueue := q0, deliveries := [], newFound := 0 }
  | .ok allAds =>
    let st := processAds q0.isEmpty (seenOf q0) oracle allAds
      { queue := q0, newFound := 0, firstRunSent := 0, oracleIdx := 0, deliveries := [] }
    let written := finishRun st.newFound st.queue
    { result := .ok (), prePruneQueue := st.queue, written := written,
      finalQueue := written.getD st.queue, deliveries := st.deliveries,
      newFound := st.newFound }

/-- The run pipeline of `main` (src/main.rs lines 280-538) after the
credential guard: load (`q0` is the loaded queue), build the seen set, page
and collect, process, prune and save. -/
def run (q0 : List String) (fetch : Nat → Except String (List Article))
    (oracle : Nat → HttpResponse) : RunTrace :=
  runWith q0 oracle (collectAds (seenOf q0) fetch)

/-- Number of successful deliveries in a delivery list. -/
def succCount (l : List DeliveryRecord) : Nat :=
  (l.filter (fun d => d.success)).length

-- ### Concrete fixtures used by witnesses and counterexamples

/-- A minimal well-formed container with the given ad id (no image). -/
def mkArticle (id : String) : Article :=
  ⟨some id, some ⟨some ("/s-anzeige/" ++ id), id⟩, none⟩

/-- A container with an image, exercising the photo delivery branch. -/
def artBild : Article :=
  ⟨some "y", some ⟨some "/s-anzeige/y", "Titel"⟩, some ⟨none, some "bild.jpg"⟩⟩

/-- A container with no `data-adid` attribute. -/
def artNoId : Article :=
  ⟨none, some ⟨some "/s-anzeige/a", "t"⟩, none⟩

/-- The record extracted from `mkArticle "gut"`. -/
def adGut : Ad :=
  ⟨"gut", "gut", "https://www.kleinanzeigen.de/s-anzeige/gut", none⟩

/-- Transport oracle: every call succeeds. -/
def oracleOk : Nat → HttpResponse := fun _ => .success

/-- Transport oracle: every call fails with a non-429 HTTP error. -/
def oracleFail : Nat → HttpResponse := fun _ => .apiError "500" "kaputt" none

/-- Transport oracle: every call is rate-limited with `retry_after = 5`. -/
def oracle429 : Nat → HttpResponse := fun _ =>
  .apiError "429" "zu viele" (some ⟨some 429, some ⟨some 5⟩⟩)

/-- Page 1 holds `N1`, the already-seen `X`, then `N2`; later pages empty. -/
def fetchC1 : Nat → Except String (List Article) := fun page =>
  if page = 1 then .ok [mkArticle "N1", mkArticle "X", mkArticle "N2"] else .ok []

/-- Page 1 holds 26 distinct new ads; later pages empty. -/
def fetchC3 : Nat → Except String (List Article) := fun page =>
  if page = 1 then
    .ok ((["a", "b", "c", "d", "e", "f", "g", "h", "i", "j", "k", "l", "m",
           "n", "o", "p", "q", "r", "s", "t", "u", "v", "w", "x", "y", "z"]).map mkArticle)
  else .ok []

/-- Page 1 holds a single new ad `neu`; later pages empty. -/
def fetchOneNew : Nat → Except String (List Article) := fun page =>
  if page = 1 then .ok [mkArticle "neu"] else .ok []

/-- Page 1 holds only the already-seen ad `x`; later pages empty. -/
def fetchSeenOnly : Nat → Except String (List Article) := fun page =>
  if page = 1 then .ok [mkArticle "x"] else .ok []

/-- The same ad id `d` appears on pages 1 and 2; later pages empty. -/
def fetchDup : Nat → Except String (List Article) := fun page =>
  if page = 1 then .ok [mkArticle "d"] else if page = 2 then .ok [mkArticle "d"] else .ok []

/-- Page 1 holds the photo ad `artBild`; later pages empty. -/
def fetchBild : Nat → Except String (List Article) := fun page =>
  if page = 1 then .ok [artBild] else .ok []

/-- Every page fetch fails with a transport error. -/
def fetchErr : Nat → Except String (List Article) := fun _ => .error "Netzwerkfehler"

-- ### Helper lemmas

theorem pruneQueue_eq_drop (q : List String) :
    pruneQueue q = q.drop (q.length - MAX_SEEN_ADS) := by
  induction q with
  | nil => simp [pruneQueue]
  | cons x t ih =>
    by_cases h : MAX_SEEN_ADS < (x :: t).length
    · have hlen : (x :: t).length - MAX_SEEN_ADS = (t.length - MAX_SEEN_ADS) + 1 := by
        simp only [List.length_cons] at h ⊢
        omega
      simp only [pruneQueue, if_pos h, hlen, List.drop_succ_cons]
      exact ih
    · have h' : ¬ MAX_SEEN_ADS < t.length + 1 := by simpa using h
      have hlen : t.length + 1 - MAX_SEEN_ADS = 0 := by omega
      simp only [pruneQueue, List.length_cons, if_neg h', hlen, List.drop_zero]

theorem pruneQueue_length_le (q : List String) :
    (pruneQueue q).length ≤ MAX_SEEN_ADS := by
  rw [pruneQueue_eq_drop, List.length_drop]
  omega

theorem succCount_append (l : List DeliveryRecord) (d : DeliveryRecord) :
    succCount (l ++ [d]) = succCount l + (if d.success then 1 else 0) := by
  simp only [succCount, List.filter_append, List.length_append, List.filter_cons,
    List.filter_nil]
  cases hd : d.success <;> simp [hd]

theorem procAds_deliveries_mem (isF : Bool) (seen : String → Bool)
    (oracle : Nat → HttpResponse) :
    ∀ (ads : List Ad) (st : ProcState) (d : DeliveryRecord),
      d ∈ (processAds isF seen oracle ads st).deliveries →
      d ∈ st.deliveries ∨ d.adId ∈ ads.map Ad.id := by
  intro ads
  induction ads with
  | nil =>
    intro st d h
    exact Or.inl h
  | cons ad rest ih =>
    intro st d h
    simp only [processAds] at h
    split at h
    · exact Or.inl h
    · split at h
      · rcases ih st d h with h1 | h1
        · exact Or.inl h1
        · right
          simp only [List.map_cons, List.mem_cons]
          exact Or.inr h1
      · rcases ih _ d h with h1 | h1
        · simp only [stepState, List.mem_append, List.mem_singleton] at h1
          rcases h1 with h2 | h2
          · exact Or.inl h2
          · right
            simp only [List.map_cons, List.mem_cons]
            left
            rw [h2]
        · right
          simp only [List.map_cons, List.mem_cons]
          exact Or.inr h1

theorem procAds_sent_le (seen : String → Bool) (oracle : Nat → HttpResponse) :
    ∀ (ads : List Ad) (st : ProcState),
      st.firstRunSent ≤ FIRST_RUN_LIMIT →
      (processAds true seen oracle ads st).firstRunSent ≤ FIRST_RUN_LIMIT := by
  intro ads
  induction ads with
  | nil =>
    intro st h
    exact h
  | cons ad rest ih =>
    intro st h
    simp only [processAds]
    split
    · exact h
    · split
      · exact ih st h
      · rename_i hbreak _
        apply ih
        simp only [stepState]
        split
        · simp only [not_and, not_le] at hbreak
          have hlt := hbreak trivial
          omega
        · exact h

theorem procAds_succ_sent (seen : String → Bool) (oracle : Nat → HttpResponse) :
    ∀ (ads : List Ad) (st : ProcState),
      succCount (processAds true seen oracle ads st).deliveries + st.firstRunSent
        = succCount st.deliveries + (processAds true seen oracle ads st).firstRunSent := by
  intro ads
  induction ads with
  | nil =>
    intro st
    rfl
  | cons ad rest ih =>
    intro st
    simp only [processAds]
    split
    · rfl
    · split
      · exact ih st
      · have h := ih (stepState true st ad (deliverAd oracle st.oracleIdx ad.image_url.isSome))
        have hdel : (stepState true st ad
            (deliverAd oracle st.oracleIdx ad.image_url.isSome)).deliveries
            = st.deliveries ++ [⟨ad.id, (deliverAd oracle st.oracleIdx ad.image_url.isSome).attempts,
                (deliverAd oracle st.oracleIdx ad.image_url.isSome).sleeps,
                (deliverAd oracle st.oracleIdx ad.image_url.isSome).success⟩] := rfl
        rw [hdel, succCount_append] at h
        cases hs : (deliverAd oracle st.oracleIdx ad.image_url.isSome).success with
        | false =>
          simp [stepState, hs] at h ⊢
          omega
        | true =>
          simp [stepState, hs] at h ⊢
          omega

theorem procAds_all_seen (isF : Bool) (seen : String → Bool) (oracle : Nat → HttpResponse) :
    ∀ (ads : List Ad) (st : ProcState),
      (∀ a ∈ ads, seen a.id = true) →
      processAds isF seen oracle ads st = st := by
  intro ads
  induction ads with
  | nil =>
    intro st _
    rfl
  | cons ad rest ih =>
    intro st hall
    simp only [processAds]
    split
    · rfl
    · rw [if_pos (hall ad (List.mem_cons_self ad rest))]
      exact ih st (fun a ha => hall a (List.mem_cons_of_mem ad ha))

theorem collectGo_pages (seen : String → Bool) (fetch : Nat → Except String (List Article))
    (k : Nat)
    (hk : ∃ arts, fetch k = .ok arts ∧
      (scrape_kleinanzeigen_page arts).any (fun a => seen a.id) = true) :
    ∀ (fuel page : Nat) (acc : List Ad),
      1 ≤ page → page ≤ k →
      (∀ j, page ≤ j → j < k → ∃ arts, fetch j = .ok arts ∧
        (scrape_kleinanzeigen_page arts).any (fun a => seen a.id) = false) →
      (∀ a ∈ acc, ∃ j arts, 1 ≤ j ∧ j ≤ k ∧ fetch j = .ok arts ∧
        a ∈ scrape_kleinanzeigen_page arts) →
      ∃ l, collectGo seen fetch fuel page acc = .ok l ∧
        ∀ a ∈ l, ∃ j arts, 1 ≤ j ∧ j ≤ k ∧ fetch j = .ok arts ∧
          a ∈ scrape_kleinanzeigen_page arts := by
  intro fuel
  induction fuel with
  | zero =>
    intro page acc _ _ _ hacc
    exact ⟨acc, rfl, hacc⟩
  | succ n ih =>
    intro page acc hp1 hpk hpre hacc
    rcases Nat.lt_or_ge page k with hlt | hge
    · obtain ⟨arts, hf, hnone⟩ := hpre page le_rfl hlt
      simp only [collectGo, hf]
      by_cases he : (scrape_kleinanzeigen_page arts).isEmpty
      · simp only [he, if_true]
        exact ⟨acc, rfl, hacc⟩
      · simp only [he, Bool.false_eq_true, if_false, hnone]
        apply ih (page + 1) (acc ++ scrape_kleinanzeigen_page arts) (by omega) (by omega)
        · intro j hj1 hj2
          exact hpre j (by omega) hj2
        · intro a ha
          rcases List.mem_append.mp ha with h1 | h1
          · exact hacc a h1
          · exact ⟨page, arts, hp1, by omega, hf, h1⟩
    · have hpk' : page = k := by omega
      subst hpk'
      obtain ⟨arts, hf, hany⟩ := hk
      have hne : (scrape_kleinanzeigen_page arts).isEmpty = false := by
        cases hl : scrape_kleinanzeigen_page arts with
        | nil => rw [hl] at hany; simp at hany
        | cons b bs => simp
      simp only [collectGo, hf, hne, Bool.false_eq_true, if_false, hany, if_true]
      refine ⟨acc ++ scrape_kleinanzeigen_page arts, rfl, ?_⟩
      intro a ha
      rcases List.mem_append.mp ha with h1 | h1
      · exact hacc a h1
      · exact ⟨page, arts, hp1, le_rfl, hf, h1⟩

theorem collectGo_err (seen : String → Bool) (fetch : Nat → Except String (List Article))
    (k : Nat) (e : String) (hke : fetch k = .error e) :
    ∀ (fuel page : Nat) (acc : List Ad),
      1 ≤ page → page ≤ k → k + 1 ≤ page + fuel →
      (∀ j, page ≤ j → j < k → ∃ arts, fetch j = .ok arts ∧
        (scrape_kleinanzeigen_page arts).isEmpty = false ∧
        (scrape_kleinanzeigen_page arts).any (fun a => seen a.id) = false) →
      collectGo seen fetch fuel page acc = .error e := by
  intro fuel
  induction fuel with
  | zero =>
    intro page acc _ hpk hfuel _
    omega
  | succ n ih =>
    intro page acc hp1 hpk hfuel hpre
    rcases Nat.lt_or_ge page k with hlt | hge
    · obtain ⟨arts, hf, hne, hnone⟩ := hpre page le_rfl hlt
      simp only [collectGo, hf, hne, Bool.false_eq_true, if_false, hnone]
      apply ih (page + 1) (acc ++ scrape_kleinanzeigen_page arts) (by omega) (by omega) (by omega)
      intro j hj1 hj2
      exact hpre j (by omega) hj2
    · have hpk' : page = k := by omega
      subst hpk'
      simp only [collectGo, hke]

theorem strData_append (x y : String) : (x ++ y).data = x.data ++ y.data := by
  cases x
  cases y
  rfl

theorem isPrefixOf_append_left (p : List Char) :
    ∀ a b : List Char, a.isPrefixOf b = true → (p ++ a).isPrefixOf (p ++ b) = true := by
  induction p with
  | nil =>
    intro a b h
    simpa using h
  | cons c cs ih =>
    intro a b h
    simp only [List.cons_append, List.isPrefixOf, Bool.and_eq_true, beq_self_eq_true,
      true_and]
    exact ih a b h

theorem strStartsWith_append (p a b : String) (h : strStartsWith b a = true) :
    strStartsWith (p ++ b) (p ++ a) = true := by
  simp only [strStartsWith, strData_append]
  exact isPrefixOf_append_left p.data a.data b.data h

-- ### Claim theorems

/-- C1 (counterexample): on a run with loaded history `["X", "Y"]` whose page
1 extracts to `[N1, X, N2]` — a seen record at position 1 — the record `N2`
at position 2 of the same page still has a delivery attempted, contradicting
the claim that no record at a position greater than the seen one on page k is
delivered. -/
theorem C1_counterexample :
    (scrape_kleinanzeigen_page [mkArticle "N1", mkArticle "X", mkArticle "N2"]).map Ad.id
        = ["N1", "X", "N2"] ∧
    seenOf ["X", "Y"] "X" = true ∧
    (run ["X", "Y"] fetchC1 oracleOk).deliveries.map (fun d => d.adId) = ["N1", "N2"] := by
  decide

/-- C1 (amended): if the extraction output of page k contains a record whose
id is in the seen-set (and pages before k fetch successfully with no seen
id), then every record with a delivery attempted comes from some page j ≤ k;
no record of any page after k is delivered. -/
theorem C1_stop_after_seen_page (q : List String)
    (f : Nat → Except String (List Article)) (o : Nat → HttpResponse) (k : Nat)
    (hk1 : 1 ≤ k)
    (hpre : ∀ j, 1 ≤ j → j < k → ∃ arts, f j = .ok arts ∧
      (scrape_kleinanzeigen_page arts).any (fun a => seenOf q a.id) = false)
    (hk : ∃ arts, f k = .ok arts ∧
      (scrape_kleinanzeigen_page arts).any (fun a => seenOf q a.id) = true) :
    ∀ d ∈ (run q f o).deliveries, ∃ j arts, 1 ≤ j ∧ j ≤ k ∧ f j = .ok arts ∧
      d.adId ∈ (scrape_kleinanzeigen_page arts).map Ad.id := by
  obtain ⟨l, hl, hmem⟩ := collectGo_pages (seenOf q) f k hk MAX_PAGES_TO_SCAN 1 []
    (by omega) hk1 (fun j hj1 hj2 => hpre j hj1 hj2) (by intro a ha; simp at ha)
  intro d hd
  unfold run at hd
  rw [show collectAds (seenOf q) f = .ok l from hl] at hd
  simp only [runWith] at hd
  rcases procAds_deliveries_mem _ _ _ l _ d hd with h1 | h1
  · simp at h1
  · obtain ⟨a, hal, haid⟩ := List.mem_map.mp h1
    obtain ⟨j, arts, hj1, hjk, hf, hscr⟩ := hmem a hal
    exact ⟨j, arts, hj1, hjk, hf, List.mem_map.mpr ⟨a, hscr, haid⟩⟩

/-- C1 (witness): the amended theorem applied to the concrete run of the
counterexample, with k = 1. -/
theorem C1_stop_after_seen_page_witness :
    (∃ arts, fetchC1 1 = .ok arts ∧
      (scrape_kleinanzeigen_page arts).any (fun a => seenOf ["X", "Y"] a.id) = true) ∧
    (∀ d ∈ (run ["X", "Y"] fetchC1 oracleOk).deliveries,
      ∃ j arts, 1 ≤ j ∧ j ≤ 1 ∧ fetchC1 j = .ok arts ∧
        d.adId ∈ (scrape_kleinanzeigen_page arts).map Ad.id) := by
  have hk : ∃ arts, fetchC1 1 = .ok arts ∧
      (scrape_kleinanzeigen_page arts).any (fun a => seenOf ["X", "Y"] a.id) = true :=
    ⟨[mkArticle "N1", mkArticle "X", mkArticle "N2"], by decide, by decide⟩
  exact ⟨hk, C1_stop_after_seen_page ["X", "Y"] fetchC1 oracleOk 1 (by decide)
    (by intro j hj1 hj2; omega) hk⟩

/-- C2 (code evaluated at the failing input): with every transport call
rate-limited (HTTP 429), the photo delivery for ad `y` makes three attempts,
none of which returns Delivered (`.ok none`), yet `send_success` ends up true
(the final retry's rate-limited `Ok(Some _)` passes `.is_ok()`), so `y` is
appended to the history and saved. -/
theorem C2_bug_eval :
    (run ["z"] fetchBild oracle429).finalQueue = ["z", "y"] ∧
    (run ["z"] fetchBild oracle429).written = some ["z", "y"] ∧
    (∀ d ∈ (run ["z"] fetchBild oracle429).deliveries, d.success = true ∧
      ∀ a ∈ d.attempts, a.2 ≠ Except.ok none) := by
  decide

/-- C3 (counterexample): on a first run (empty loaded history) whose page 1
has 26 new ads and whose every delivery fails, a delivery is attempted for
all 26 records — more than `FIRST_RUN_LIMIT` — because the cap counts only
successful sends. -/
theorem C3_counterexample :
    ([] : List String).isEmpty = true ∧
    (run [] fetchC3 oracleFail).deliveries.length = 26 ∧
    ¬ (run [] fetchC3 oracleFail).deliveries.length ≤ FIRST_RUN_LIMIT := by
  decide

/-- C3 (amended): when the loaded history is empty, at most
`FIRST_RUN_LIMIT` deliveries succeed in the run (the cap bounds successful
sends; attempts for records whose delivery fails are not counted). -/
theorem C3_first_run_cap (f : Nat → Except String (List Article))
    (o : Nat → HttpResponse) :
    succCount (run [] f o).deliveries ≤ FIRST_RUN_LIMIT := by
  unfold run
  cases hc : collectAds (seenOf []) f with
  | error e =>
    simp [runWith, succCount]
  | ok l =>
    simp only [runWith, List.isEmpty_nil]
    have h1 := procAds_succ_sent (seenOf []) o l
      ⟨[], 0, 0, 0, []⟩
    have h2 := procAds_sent_le (seenOf []) o l
      ⟨[], 0, 0, 0, []⟩ (by simp [FIRST_RUN_LIMIT])
    simp only [succCount, List.filter_nil, List.length_nil] at h1 ⊢
    omega

/-- C3 (witness): the amended theorem applied to the first run whose 26
deliveries all fail — zero of them succeed, within the cap. -/
theorem C3_first_run_cap_witness :
    succCount (run [] fetchC3 oracleFail).deliveries ≤ FIRST_RUN_LIMIT :=
  C3_first_run_cap fetchC3 oracleFail

set_option maxRecDepth 100000

/-- C4 (counterexample): a run loading a persisted history of 1001 entries
that finds zero new items performs no pruning and no save, so the history
length after the run (1001) exceeds `MAX_SEEN_ADS`. -/
theorem C4_counterexample :
    MAX_SEEN_ADS < (List.replicate 1001 "x").length ∧
    (run (List.replicate 1001 "x") (fun _ => .ok []) oracleOk).finalQueue.length = 1001 ∧
    (run (List.replicate 1001 "x") (fun _ => .ok []) oracleOk).written = none := by
  decide

/-- C4 (amended): for every run that finds at least one new item, the
seen-history length after the run's pruning never exceeds `MAX_SEEN_ADS`; a
run that finds zero new items leaves the history at its loaded length, which
may exceed the cap if the persisted history already did. -/
theorem C4_cap_after_prune (q : List String)
    (f : Nat → Except String (List Article)) (o : Nat → HttpResponse)
    (h : 0 < (run q f o).newFound) :
    (run q f o).finalQueue.length ≤ MAX_SEEN_ADS := by
  have hrun : run q f o = runWith q o (collectAds (seenOf q) f) := rfl
  rw [hrun] at h ⊢
  cases hc : collectAds (seenOf q) f with
  | error e =>
    rw [hc] at h
    simp [runWith] at h
  | ok l =>
    rw [hc] at h
    simp only [runWith] at h ⊢
    simp only [finishRun, if_pos h, Option.getD_some]
    exact pruneQueue_length_le _

/-- C4 (witness): the amended theorem applied to a run with one new
delivered ad. -/
theorem C4_cap_after_prune_witness :
    0 < (run ["z"] fetchOneNew oracleOk).newFound ∧
    (run ["z"] fetchOneNew oracleOk).finalQueue.length ≤ MAX_SEEN_ADS := by
  have h : 0 < (run ["z"] fetchOneNew oracleOk).newFound := by decide
  exact ⟨h, C4_cap_after_prune ["z"] fetchOneNew oracleOk h⟩

/-- C5: whenever save is invoked (`written = some s`) and the queue after
the run's insertions is longer than `MAX_SEEN_ADS`, the sequence passed to
save has length exactly `MAX_SEEN_ADS` and equals the last `MAX_SEEN_ADS`
elements, in order, of the pre-prune queue. -/
theorem C5_fifo_prune (q : List String)
    (f : Nat → Except String (List Article)) (o : Nat → HttpResponse)
    (s : List String)
    (hw : (run q f o).written = some s)
    (hlen : MAX_SEEN_ADS < (run q f o).prePruneQueue.length) :
    s.length = MAX_SEEN_ADS ∧
    s = (run q f o).prePruneQueue.drop
          ((run q f o).prePruneQueue.length - MAX_SEEN_ADS) := by
  have hrun : run q f o = runWith q o (collectAds (seenOf q) f) := rfl
  rw [hrun] at hw hlen ⊢
  cases hc : collectAds (seenOf q) f with
  | error e =>
    rw [hc] at hw
    simp [runWith] at hw
  | ok l =>
    rw [hc] at hw hlen
    simp only [runWith] at hw hlen ⊢
    simp only [finishRun] at hw
    split at hw
    · have hs : s = pruneQueue (processAds q.isEmpty (seenOf q) o l
          ⟨q, 0, 0, 0, []⟩).queue := by
        exact (Option.some.inj hw).symm
      subst hs
      rw [pruneQueue_eq_drop]
      refine ⟨?_, rfl⟩
      rw [List.length_drop]
      omega
    · simp at hw

/-- C5 (witness): the theorem applied to a run loading 1000 entries and
delivering one new ad, so the pre-prune queue has 1001 entries and save
receives its last 1000. -/
theorem C5_fifo_prune_witness :
    (run (List.replicate 1000 "x") fetchOneNew oracleOk).written
        = some (List.replicate 999 "x" ++ ["neu"]) ∧
    MAX_SEEN_ADS < (run (List.replicate 1000 "x") fetchOneNew oracleOk).prePruneQueue.length ∧
    ((List.replicate 999 "x" ++ ["neu"]).length = MAX_SEEN_ADS ∧
      List.replicate 999 "x" ++ ["neu"]
        = (run (List.replicate 1000 "x") fetchOneNew oracleOk).prePruneQueue.drop
            ((run (List.replicate 1000 "x") fetchOneNew oracleOk).prePruneQueue.length
              - MAX_SEEN_ADS)) := by
  have h1 : (run (List.replicate 1000 "x") fetchOneNew oracleOk).written
      = some (List.replicate 999 "x" ++ ["neu"]) := by decide
  have h2 : MAX_SEEN_ADS
      < (run (List.replicate 1000 "x") fetchOneNew oracleOk).prePruneQueue.length := by decide
  exact ⟨h1, h2, C5_fifo_prune (List.replicate 1000 "x") fetchOneNew oracleOk
    (List.replicate 999 "x" ++ ["neu"]) h1 h2⟩

/-- C6: if every collected record's id is already in the loaded history
(zero new records found across all scanned pages), save is never invoked and
the in-memory history is left exactly as loaded. -/
theorem C6_no_new_no_save (q : List String)
    (f : Nat → Except String (List Article)) (o : Nat → HttpResponse)
    (ads : List Ad)
    (hc : collectAds (seenOf q) f = .ok ads)
    (hall : ∀ a ∈ ads, seenOf q a.id = true) :
    (run q f o).written = none ∧ (run q f o).finalQueue = q := by
  have hst := procAds_all_seen q.isEmpty (seenOf q) o ads ⟨q, 0, 0, 0, []⟩ hall
  unfold run
  rw [hc]
  simp only [runWith, hst]
  exact ⟨rfl, rfl⟩

/-- C6 (witness): the theorem applied to a run whose single page holds only
the already-seen ad `x`. -/
theorem C6_no_new_no_save_witness :
    collectAds (seenOf ["x"]) fetchSeenOnly
        = .ok [⟨"x", "x", "https://www.kleinanzeigen.de/s-anzeige/x", none⟩] ∧
    (run ["x"] fetchSeenOnly oracleOk).written = none ∧
    (run ["x"] fetchSeenOnly oracleOk).finalQueue = ["x"] := by
  have hc : collectAds (seenOf ["x"]) fetchSeenOnly
      = .ok [⟨"x", "x", "https://www.kleinanzeigen.de/s-anzeige/x", none⟩] := by decide
  have h := C6_no_new_no_save ["x"] fetchSeenOnly oracleOk
    [⟨"x", "x", "https://www.kleinanzeigen.de/s-anzeige/x", none⟩] hc (by decide)
  exact ⟨hc, h.1, h.2⟩

/-- C7 (counterexample): in plain-text mode, a delivery that is rate-limited
on the first attempt and rate-limited again on the retry makes only two
attempts in total — there is no second, final retry as the claim states for
both modes — and the record is then treated as successfully sent (the
rate-limited retry passes `.is_ok()`), not as a delivery failure. -/
theorem C7_counterexample :
    (deliverAd oracle429 0 false).attempts.length = 2 ∧
    (deliverAd oracle429 0 false).sleeps = [5] ∧
    (deliverAd oracle429 0 false).success = true := by
  decide

/-- C7 (amended): on a rate-limited response the run suspends for the
suggested wait (30 seconds when the 429 carries no `retry_after`) and
retries the same mode; the photo mode retries twice in total (the second
retry's outcome counting as success whenever it is not a hard error), while
the plain-text mode retries only once (that retry's outcome counting as
success whenever it is not a hard error). -/
theorem C7_retry_policy (o : Nat → HttpResponse) (k : Nat) (ra ra2 : Int)
    (h1 : handleResponse (o k) = .ok (some ra))
    (h2 : handleResponse (o (k + 1)) = .ok (some ra2)) :
    ((deliverAd o k true).sleeps = [ra, ra2] ∧
      (deliverAd o k true).attempts
        = [(.photo, .ok (some ra)), (.photo, .ok (some ra2)),
            (.photo, handleResponse (o (k + 2)))] ∧
      (deliverAd o k true).success = sendIsOk (handleResponse (o (k + 2)))) ∧
    ((deliverAd o k false).sleeps = [ra] ∧
      (deliverAd o k false).attempts
        = [(.text, .ok (some ra)), (.text, .ok (some ra2))] ∧
      (deliverAd o k false).success = true) ∧
    (∀ status body,
      handleResponse (.apiError status body (some ⟨some 429, none⟩)) = .ok (some 30)) := by
  refine ⟨?_, ?_, ?_⟩
  · simp [deliverAd, h1, h2]
  · simp [deliverAd, h1, h2, sendIsOk]
  · intro status body
    rfl

/-- C7 (witness): the amended theorem applied to the all-rate-limited oracle
with suggested wait 5. -/
theorem C7_retry_policy_witness :
    handleResponse (oracle429 0) = .ok (some 5) ∧
    (deliverAd oracle429 0 true).sleeps = [5, 5] ∧
    (deliverAd oracle429 0 false).sleeps = [5] := by
  have h1 : handleResponse (oracle429 0) = .ok (some 5) := by decide
  have h2 : handleResponse (oracle429 (0 + 1)) = .ok (some 5) := by decide
  have h := C7_retry_policy oracle429 0 5 5 h1 h2
  exact ⟨h1, h.1.1, h.2.1.1⟩

/-- C8: if every page before k fetches successfully with new, non-empty
results and the fetch of page k (k within the page bound) fails with a
transport error, the run's result is that error and save is never invoked. -/
theorem C8_fetch_error (q : List String)
    (f : Nat → Except String (List Article)) (o : Nat → HttpResponse)
    (k : Nat) (e : String)
    (hk1 : 1 ≤ k) (hk10 : k ≤ MAX_PAGES_TO_SCAN)
    (hpre : ∀ j, 1 ≤ j → j < k → ∃ arts, f j = .ok arts ∧
      (scrape_kleinanzeigen_page arts).isEmpty = false ∧
      (scrape_kleinanzeigen_page arts).any (fun a => seenOf q a.id) = false)
    (hke : f k = .error e) :
    (run q f o).result = .error e ∧ (run q f o).written = none := by
  have hfuel : k + 1 ≤ 1 + MAX_PAGES_TO_SCAN := by
    simp only [MAX_PAGES_TO_SCAN] at hk10 ⊢
    omega
  have hcol : collectAds (seenOf q) f = .error e :=
    collectGo_err (seenOf q) f k e hke MAX_PAGES_TO_SCAN 1 [] (by omega) hk1 hfuel
      (fun j hj1 hj2 => hpre j hj1 hj2)
  have hrun : run q f o = runWith q o (collectAds (seenOf q) f) := rfl
  rw [hrun, hcol]
  exact ⟨rfl, rfl⟩

/-- C8 (witness): the theorem applied to a run whose very first page fetch
fails. -/
theorem C8_fetch_error_witness :
    fetchErr 1 = .error "Netzwerkfehler" ∧
    (run ["x"] fetchErr oracleOk).result = .error "Netzwerkfehler" ∧
    (run ["x"] fetchErr oracleOk).written = none := by
  have h := C8_fetch_error ["x"] fetchErr oracleOk 1 "Netzwerkfehler" (by decide) (by decide)
    (by intro j hj1 hj2; omega) rfl
  exact ⟨rfl, h.1, h.2⟩

/-- C9: extraction is total by construction and filters as specified — a
container lacking the id attribute, lacking the title/link element, lacking
an href, or whose href does not begin with `/s-anzeige/` yields no record;
and every extracted record's link begins with the site origin followed by
`/s-anzeige/`. -/
theorem C9_extractor (articles : List Article) (article : Article) :
    (article.dataAdid = none → articleRecord article = none) ∧
    (article.titleLink = none → articleRecord article = none) ∧
    (∀ le, article.titleLink = some le → le.href = none →
      articleRecord article = none) ∧
    (∀ le href, article.titleLink = some le → le.href = some href →
      strStartsWith href adPathMarker = false → articleRecord article = none) ∧
    (∀ ad, ad ∈ scrape_kleinanzeigen_page articles →
      strStartsWith ad.link (siteOrigin ++ adPathMarker) = true) := by
  refine ⟨?_, ?_, ?_, ?_, ?_⟩
  · intro h
    simp [articleRecord, h]
  · intro h
    cases ha : article.dataAdid <;> simp [articleRecord, ha, h]
  · intro le hle hhref
    cases ha : article.dataAdid <;> simp [articleRecord, ha, hle, hhref]
  · intro le href hle hhref hpref
    cases ha : article.dataAdid <;> simp [articleRecord, ha, hle, hhref, hpref]
  · intro ad had
    obtain ⟨art, hart, hrec⟩ := List.mem_filterMap.mp had
    cases ha : art.dataAdid with
    | none => simp [articleRecord, ha] at hrec
    | some adId =>
      cases hl : art.titleLink with
      | none => simp [articleRecord, ha, hl] at hrec
      | some le =>
        cases hh : le.href with
        | none => simp [articleRecord, ha, hl, hh] at hrec
        | some href =>
          simp only [articleRecord, ha, hl, hh] at hrec
          split at hrec
          · rename_i hpref
            have hlink : ad.link = siteOrigin ++ href := by
              rw [← Option.some.inj hrec]
            rw [hlink]
            exact strStartsWith_append siteOrigin adPathMarker href hpref
          · simp at hrec

/-- C9 (witness): the theorem applied to a container without an id (skipped)
and to a well-formed container (extracted, link has the required shape). -/
theorem C9_extractor_witness :
    artNoId.dataAdid = none ∧
    articleRecord artNoId = none ∧
    adGut ∈ scrape_kleinanzeigen_page [mkArticle "gut"] ∧
    strStartsWith adGut.link (siteOrigin ++ adPathMarker) = true := by
  have hmem : adGut ∈ scrape_kleinanzeigen_page [mkArticle "gut"] := by decide
  exact ⟨rfl, (C9_extractor [] artNoId).1 rfl,
    hmem, (C9_extractor [mkArticle "gut"] artNoId).2.2.2.2 adGut hmem⟩

/-- C10: the seen-set is fixed at load, so the same unseen id `d` appearing
on pages 1 and 2 gets a delivery attempted for each occurrence and is
appended to the history twice, producing duplicate notifications and
duplicate history entries. -/
theorem C10_duplicate_ids :
    seenOf ["z"] "d" = false ∧
    (run ["z"] fetchDup oracleOk).deliveries.map (fun d => d.adId) = ["d", "d"] ∧
    (run ["z"] fetchDup oracleOk).finalQueue = ["z", "d", "d"] := by
  decide
